import Mathlib

/-!
# Verification of the small-talk room/session coordination core

Shallow embedding of the repository's core logic:

* `storage.js` — the in-memory voice-message (blob) store:
  `storeVoiceMessage`, `getVoiceMessage`, `cleanupOldMessages`.
* `socketHandlers.js` — the Socket.IO event handlers:
  the `join-room`, `send-message`, `send-voice` and `disconnect`
  handlers, the per-room member tracking map `rooms`, the helper
  `removeUserFromRoom`, and the nickname generator `generateNickname`.

JavaScript `Map`s are modelled as association lists (insertion order,
first-key-match lookup), JS `Set`s of member objects as lists in
insertion order (object identity means even equal-looking member
records are distinct set elements, hence a list, not a finset).
Timestamps are naturals (`Date.now()` milliseconds); the one place the
code subtracts timestamps compares over `Int` to match JS number
arithmetic.  JS truthiness tests on the `currentRoom` / `currentNickname`
variables (`if (currentRoom)`, `if (!currentRoom || !currentNickname)`)
are modelled exactly: `null` and the empty string are falsy.
Console logging is not modelled; it has no effect on state or
emitted events.
-/

namespace SmallTalk

/-! ## Ephemeral blob store (`storage.js`) -/

/-- A stored voice message record: `{ buffer, mimeType, timestamp }`
as built by `storeVoiceMessage`.  The buffer is a byte list. -/
structure VoiceRecord where
  buffer : List Nat
  mimeType : String
  timestamp : Nat
  deriving Repr, DecidableEq

/-- The backing `Map` `voiceMessages : messageId -> record`, as an
association list in insertion order. -/
abbrev VoiceStore := List (String × VoiceRecord)

/-- `Map.get`: first entry with the given key. -/
def mapGet (k : String) : VoiceStore → Option VoiceRecord
  | [] => none
  | (k', v) :: rest => if k' = k then some v else mapGet k rest

/-- `Map.set`: replace the entry in place if the key is present
(JS `Map.set` keeps the original insertion position), else append. -/
def mapSet (k : String) (v : VoiceRecord) : VoiceStore → VoiceStore
  | [] => [(k, v)]
  | (k', v') :: rest =>
    if k' = k then (k, v) :: rest else (k', v') :: mapSet k v rest

/-- `storeVoiceMessage(messageId, buffer, mimeType)`:
`voiceMessages.set(messageId, { buffer, mimeType, timestamp: Date.now() })`.
The current clock reading is an explicit argument `now`. -/
def storeVoiceMessage (messageId : String) (buffer : List Nat)
    (mimeType : String) (now : Nat) (store : VoiceStore) : VoiceStore :=
  mapSet messageId ⟨buffer, mimeType, now⟩ store

/-- `getVoiceMessage(messageId)`: `voiceMessages.get(messageId) || null`.
A pure lookup; the store is not touched (the embedding returns no
store because the JS function performs no mutation). -/
def getVoiceMessage (messageId : String) (store : VoiceStore) :
    Option VoiceRecord :=
  mapGet messageId store

/-- `maxAge = 24 * 60 * 60 * 1000` — the 24-hour retention window in
milliseconds. -/
def maxAge : Nat := 24 * 60 * 60 * 1000

/-- The deletion test of the cleanup loop:
`now - data.timestamp > maxAge`, over JS numbers, hence `Int`. -/
def isExpired (now : Nat) (v : VoiceRecord) : Bool :=
  (maxAge : Int) < (now : Int) - (v.timestamp : Int)

/-- The `for (const [messageId, data] of voiceMessages.entries())` loop
of `cleanupOldMessages`: deletes every expired entry, counting them.
Returns the surviving store and the final `deletedCount`. -/
def cleanupLoop (now : Nat) : VoiceStore → VoiceStore × Nat
  | [] => ([], 0)
  | (k, v) :: rest =>
    let r := cleanupLoop now rest
    if isExpired now v then (r.1, r.2 + 1) else ((k, v) :: r.1, r.2)

/-- Outcome of one `cleanupOldMessages()` call: the store afterwards,
the internal `deletedCount` (only ever logged), and the JS return value
of the function. -/
structure SweepResult where
  store : VoiceStore
  deletedCount : Nat
  returned : Option Nat
  deriving Repr, DecidableEq

/-- `cleanupOldMessages()`: runs the deletion loop; the function body
ends without a `return` statement, so its JS return value is
`undefined` (`none`) — the computed `deletedCount` is only logged. -/
def cleanupOldMessages (now : Nat) (store : VoiceStore) : SweepResult :=
  let r := cleanupLoop now store
  ⟨r.1, r.2, none⟩

/-! ### Blob store lemmas -/

theorem mapGet_mapSet_self (k : String) (v : VoiceRecord)
    (s : VoiceStore) : mapGet k (mapSet k v s) = some v := by
  induction s with
  | nil => simp [mapGet, mapSet]
  | cons p rest ih =>
    obtain ⟨k', v'⟩ := p
    by_cases h : k' = k
    · simp [mapGet, mapSet, h]
    · simp [mapGet, mapSet, h, ih]

theorem cleanupLoop_store_eq_filter (now : Nat) (s : VoiceStore) :
    (cleanupLoop now s).1 = s.filter (fun p => !isExpired now p.2) := by
  induction s with
  | nil => simp [cleanupLoop]
  | cons p rest ih =>
    obtain ⟨k, v⟩ := p
    by_cases h : isExpired now v
    · simp [cleanupLoop, h, ih, List.filter_cons]
    · simp [cleanupLoop, h, ih, List.filter_cons]

theorem cleanupLoop_count_eq (now : Nat) (s : VoiceStore) :
    (cleanupLoop now s).2 = (s.filter (fun p => isExpired now p.2)).length := by
  induction s with
  | nil => simp [cleanupLoop]
  | cons p rest ih =>
    obtain ⟨k, v⟩ := p
    by_cases h : isExpired now v
    · simp [cleanupLoop, h, ih, List.filter_cons]
    · simp [cleanupLoop, h, ih, List.filter_cons]

theorem mapGet_filter (now : Nat) (s : VoiceStore) (id : String)
    (hnd : (s.map Prod.fst).Nodup) :
    mapGet id (s.filter (fun p => !isExpired now p.2)) =
      match mapGet id s with
      | some v => if isExpired now v then none else some v
      | none => none := by
  induction s with
  | nil => simp [mapGet]
  | cons p rest ih =>
    obtain ⟨k, v⟩ := p
    simp only [List.map_cons, List.nodup_cons] at hnd
    obtain ⟨hk, hrest⟩ := hnd
    by_cases hid : k = id
    · subst hid
      -- the key is absent from the rest, so the filtered rest misses it
      have habs : ∀ s' : VoiceStore, (∀ q ∈ s', q.1 ≠ k) →
          mapGet k s' = none := by
        intro s' hs'
        induction s' with
        | nil => rfl
        | cons q qs ihq =>
          obtain ⟨kq, vq⟩ := q
          have h1 : kq ≠ k := hs' (kq, vq) (by simp)
          simp only [mapGet, if_neg h1]
          exact ihq (fun q hq => hs' q (by simp [hq]))
      have hnone : mapGet k (rest.filter (fun p => !isExpired now p.2)) = none := by
        apply habs
        intro q hq hqk
        exact hk (hqk ▸ (List.mem_map.mpr ⟨q, (List.mem_filter.mp hq).1, rfl⟩))
      by_cases h : isExpired now v
      · simp [List.filter_cons, h, mapGet, hnone]
      · simp [List.filter_cons, h, mapGet]
    · by_cases h : isExpired now v
      · simp only [List.filter_cons, h, Bool.not_true]
        simp only [mapGet, if_neg hid]
        exact ih hrest
      · simp only [List.filter_cons, h, Bool.not_false]
        simp only [mapGet, if_neg hid]
        exact ih hrest

/-! ### Blob store claims -/

/-- **C8.** `put` immediately followed by `get` returns exactly the
stored bytes and content type (and the insertion timestamp) unchanged;
`get` is a pure lookup, so the store — in particular every record's
insertion timestamp — is untouched by it (in the embedding `get`
returns no store at all, mirroring the mutation-free JS body). -/
theorem put_get_roundtrip (id : String) (buffer : List Nat)
    (mimeType : String) (now : Nat) (store : VoiceStore) :
    getVoiceMessage id (storeVoiceMessage id buffer mimeType now store) =
      some ⟨buffer, mimeType, now⟩ :=
  mapGet_mapSet_self id ⟨buffer, mimeType, now⟩ store

/-- **C9.** Sweeping twice at the same clock reading removes the
expired entries in the first call only: the second call deletes zero
records and returns the store unchanged. -/
theorem sweep_idempotent (now : Nat) (store : VoiceStore) :
    (cleanupOldMessages now (cleanupOldMessages now store).store).store =
        (cleanupOldMessages now store).store ∧
      (cleanupOldMessages now (cleanupOldMessages now store).store).deletedCount = 0 := by
  have h1 : (cleanupOldMessages now store).store =
      store.filter (fun p => !isExpired now p.2) :=
    cleanupLoop_store_eq_filter now store
  constructor
  · show (cleanupLoop now _).1 = _
    rw [cleanupLoop_store_eq_filter, h1, List.filter_filter]
    simp only [Bool.and_self]
  · show (cleanupLoop now _).2 = 0
    rw [cleanupLoop_count_eq, h1, List.length_eq_zero, List.filter_filter,
      List.filter_eq_nil_iff]
    intro p _
    simp

/-- **C2 (counterexample).** The claim says `sweep` *returns* the
number of records removed.  At a store holding one 25-hour-old record,
the sweep removes that record (`deletedCount = 1`) but the JS function
body has no `return` statement, so its return value is `undefined`,
not `1`. -/
theorem sweep_return_counterexample :
    (cleanupOldMessages (25 * 60 * 60 * 1000)
        [("voice-1", ⟨[1, 2, 3, 4, 5], "audio/webm", 0⟩)]).store = [] ∧
      (cleanupOldMessages (25 * 60 * 60 * 1000)
        [("voice-1", ⟨[1, 2, 3, 4, 5], "audio/webm", 0⟩)]).deletedCount = 1 ∧
      (cleanupOldMessages (25 * 60 * 60 * 1000)
        [("voice-1", ⟨[1, 2, 3, 4, 5], "audio/webm", 0⟩)]).returned ≠ some 1 := by
  decide

/-- **C2 (amended).** `sweep` removes exactly the records whose age
strictly exceeds the 24-hour window (`now - timestamp > maxAge`),
leaves every younger record in place unchanged, and counts the
removals internally (the count is logged, not returned: the function
returns `undefined`).  Pointwise, on a store with distinct ids, a
record survives the sweep iff it is not expired. -/
theorem sweep_removes_exactly_expired (now : Nat) (store : VoiceStore)
    (hnd : (store.map Prod.fst).Nodup) :
    (cleanupOldMessages now store).store =
        store.filter (fun p => !isExpired now p.2) ∧
      (cleanupOldMessages now store).deletedCount =
        (store.filter (fun p => isExpired now p.2)).length ∧
      (cleanupOldMessages now store).returned = none ∧
      (∀ id, getVoiceMessage id (cleanupOldMessages now store).store =
        match getVoiceMessage id store with
        | some v => if isExpired now v then none else some v
        | none => none) := by
  refine ⟨cleanupLoop_store_eq_filter now store,
    cleanupLoop_count_eq now store, rfl, ?_⟩
  intro id
  show mapGet id (cleanupLoop now store).1 = _
  rw [cleanupLoop_store_eq_filter]
  exact mapGet_filter now store id hnd

/-- Witness for C2: a two-record store at 25 hours, one fresh record
put one hour before the sweep; the old record goes, the fresh survives. -/
theorem sweep_removes_exactly_expired_witness :
    ((cleanupOldMessages (25 * 60 * 60 * 1000)
        [("voice-1", ⟨[1, 2, 3, 4, 5], "audio/webm", 0⟩),
         ("voice-2", ⟨[9], "audio/ogg", 24 * 60 * 60 * 1000⟩)]).store =
      [("voice-2", ⟨[9], "audio/ogg", 24 * 60 * 60 * 1000⟩)]) := by
  have h := sweep_removes_exactly_expired (25 * 60 * 60 * 1000)
    [("voice-1", ⟨[1, 2, 3, 4, 5], "audio/webm", 0⟩),
     ("voice-2", ⟨[9], "audio/ogg", 24 * 60 * 60 * 1000⟩)] (by decide)
  rw [h.1]
  decide

/-! ## Socket event handlers (`socketHandlers.js`) — data model -/

/-- One element of a room's member `Set`:
`{ socketId: socket.id, nickname: currentNickname }`. -/
structure MemberEntry where
  socketId : String
  nickname : String
  deriving Repr, DecidableEq

/-- The module-level `rooms` map: `roomId -> Set of member objects`,
as an association list of rooms, each room's member set as a list in
insertion order. -/
abbrev Rooms := List (String × List MemberEntry)

/-- `rooms.get(roomId)`. -/
def roomsGet (k : String) : Rooms → Option (List MemberEntry)
  | [] => none
  | (k', v) :: rest => if k' = k then some v else roomsGet k rest

/-- `rooms.get(roomId)` with a missing room read as the empty member
list (`rooms.get(roomId) || []`). -/
def roomsGetD (k : String) (rooms : Rooms) : List MemberEntry :=
  (roomsGet k rooms).getD []

/-- `rooms.has(roomId)`. -/
def roomsHas (k : String) (rooms : Rooms) : Bool :=
  (roomsGet k rooms).isSome

/-- `rooms.set(roomId, members)`: in-place update of an existing key,
append for a new one. -/
def roomsSet (k : String) (v : List MemberEntry) : Rooms → Rooms
  | [] => [(k, v)]
  | (k', v') :: rest =>
    if k' = k then (k, v) :: rest else (k', v') :: roomsSet k v rest

/-- `rooms.delete(roomId)`. -/
def roomsDelete (k : String) (rooms : Rooms) : Rooms :=
  rooms.filter (fun p => p.1 ≠ k)

/-- The `for (const user of room) { if (user.socketId === socketId)
{ room.delete(user); break; } }` loop: deletes the first member whose
`socketId` matches, then stops. -/
def removeFirst (sid : String) : List MemberEntry → List MemberEntry
  | [] => []
  | u :: rest => if u.socketId = sid then rest else u :: removeFirst sid rest

/-- `removeUserFromRoom(roomId, socketId)`: removes the matching member
(if any) and deletes the room entry when the member set becomes empty. -/
def removeUserFromRoom (roomId socketId : String) (rooms : Rooms) : Rooms :=
  match roomsGet roomId rooms with
  | none => rooms
  | some room =>
    let room' := removeFirst socketId room
    if room'.length = 0 then roomsDelete roomId rooms
    else roomsSet roomId room' rooms

/-- The per-connection closure variables of the handler:
`let currentRoom = null; let currentNickname = null;`. -/
structure ConnState where
  currentRoom : Option String
  currentNickname : Option String
  deriving Repr, DecidableEq

/-- JS truthiness of the `currentRoom` / `currentNickname` variables:
`null` and the empty string are falsy, every other string is truthy. -/
def jsTruthy : Option String → Bool
  | none => false
  | some s => !(s == "")

/-- The fixed nickname vocabulary
`['User', 'Guest', 'Visitor', 'Friend', 'Member']` (the array the JS
code indexes with its first random draw). -/
def nicknameWords : List String := ["User", "Guest", "Visitor", "Friend", "Member"]

/-- `generateNickname()`: category word plus a random number in
1000–9999.  The two random draws are explicit inputs: `randWord`
models `Math.floor(Math.random() * nicknameWords.length)` via `% 5`, and
`randNum` models `Math.floor(Math.random() * 9000)` via `% 9000`. -/
def generateNickname (randWord randNum : Nat) : String :=
  let pfx := (nicknameWords.get? (randWord % nicknameWords.length)).getD "User"
  let number := randNum % 9000 + 1000
  pfx ++ toString number

/-- A broadcast message object, covering both shapes built by the
`send-message` and `send-voice` handlers (absent fields are `none`). -/
structure Message where
  id : String
  type : String
  content : Option String
  url : Option String
  duration : Option Nat
  nickname : String
  timestamp : Nat
  deriving Repr, DecidableEq

/-- `` `msg-${Date.now()}-${Math.random().toString(36).substr(2, 9)}` ``:
the fresh text-message id; `rand` models the random base-36 suffix. -/
def mkMessageId (now : Nat) (rand : String) : String :=
  "msg-" ++ toString now ++ "-" ++ rand

/-- One outbound event, tagged with its recipient socket set:
`socket.emit` targets the one connection, `socket.to(room).emit`
targets the room minus the sender, `io.to(room).emit` the whole room. -/
inductive Event where
  | nicknameAssigned (target : String) (nickname : String)
  | userJoined (recipients : List String) (nickname : String) (timestamp : Nat)
  | participantsList (target : String) (names : List String)
  | newMessage (recipients : List String) (msg : Message)
  | userLeft (recipients : List String) (nickname : String) (timestamp : Nat)
  deriving Repr, DecidableEq

/-- Whether an event is a `user-left` departure notification. -/
def Event.isUserLeft : Event → Bool
  | .userLeft _ _ _ => true
  | _ => false

/-- Result of running one socket event handler: the connection's
closure variables, the `rooms` map, and the events emitted, in
emission order. -/
structure StepResult where
  conn : ConnState
  rooms : Rooms
  events : List Event
  deriving Repr, DecidableEq

/-- The leave-previous-room step at the top of the `join-room`
handler.  Runs only when the `currentRoom` closure variable is truthy
(in JS, neither `null` nor the empty string); it removes the member
record but emits nothing. -/
def leavePrevious (sid : String) (conn : ConnState) (rooms : Rooms) : Rooms :=
  -- if (currentRoom) { socket.leave(currentRoom); removeUserFromRoom(currentRoom, socket.id); }
  if jsTruthy conn.currentRoom then
    removeUserFromRoom (conn.currentRoom.getD "") sid rooms
  else rooms

/-- The room-creation-plus-insertion step of the `join-room` handler:
`if (!rooms.has(roomId)) rooms.set(roomId, new Set());` followed by
`rooms.get(roomId).add({ socketId, nickname })` (a JS `Set.add` of a
fresh object always appends). -/
def addMember (roomId : String) (e : MemberEntry) (rooms : Rooms) : Rooms :=
  let rooms2 := if roomsHas roomId rooms then rooms else roomsSet roomId [] rooms
  roomsSet roomId (roomsGetD roomId rooms2 ++ [e]) rooms2

/-- The `join-room` handler.  `nick` is the freshly generated nickname
(`generateNickname()` output), `now` the clock reading for the
`user-joined` timestamp.  Leaves the previous room (if the
`currentRoom` variable is truthy) *without* emitting any departure
notification, joins the new room (creating it on demand), then emits,
in order: `nickname-assigned` to the joiner, `user-joined` to the room
minus the joiner, `participants-list` to the joiner. -/
def joinRoomHandler (sid nick roomId : String) (now : Nat)
    (conn : ConnState) (rooms : Rooms) : StepResult :=
  let rooms3 := addMember roomId ⟨sid, nick⟩ (leavePrevious sid conn rooms)
  { conn := ⟨some roomId, some nick⟩
    rooms := rooms3
    events := [
      Event.nicknameAssigned sid nick,
      Event.userJoined
        (((roomsGetD roomId rooms3).filter (fun u => u.socketId ≠ sid)).map
          (fun u => u.socketId)) nick now,
      Event.participantsList sid
        ((roomsGetD roomId rooms3).map (fun u => u.nickname))] }

/-- The `send-message` handler.  Drops the action (no event, no state
change) unless both `currentRoom` and `currentNickname` are truthy;
otherwise broadcasts one `new-message` to the whole room, sender
included, with a fresh id built from the clock and a random suffix. -/
def sendMessageHandler (_sid content : String) (now : Nat) (rand : String)
    (conn : ConnState) (rooms : Rooms) : StepResult :=
  if jsTruthy conn.currentRoom && jsTruthy conn.currentNickname then
    { conn := conn
      rooms := rooms
      events := [Event.newMessage
        ((roomsGetD (conn.currentRoom.getD "") rooms).map (fun u => u.socketId))
        ⟨mkMessageId now rand, "text", some content, none, none,
          conn.currentNickname.getD "", now⟩] }
  else { conn := conn, rooms := rooms, events := [] }

/-- The `send-voice` handler.  Same guard as `send-message`; reuses the
caller-supplied `messageId` and `url`, defaulting a falsy `duration`
to `0`. -/
def sendVoiceHandler (_sid messageId url : String) (duration : Option Nat)
    (now : Nat) (conn : ConnState) (rooms : Rooms) : StepResult :=
  if jsTruthy conn.currentRoom && jsTruthy conn.currentNickname then
    { conn := conn
      rooms := rooms
      events := [Event.newMessage
        ((roomsGetD (conn.currentRoom.getD "") rooms).map (fun u => u.socketId))
        ⟨messageId, "voice", none, some url, some (duration.getD 0),
          conn.currentNickname.getD "", now⟩] }
  else { conn := conn, rooms := rooms, events := [] }

/-- The `disconnect` handler.  When both closure variables are truthy,
first mutates the registry (`removeUserFromRoom`), then emits one
`user-left` to the room as it stands *after* the mutation (the
departing socket has already left the transport-level room, and
`socket.to` excludes the sender in any case); otherwise does nothing. -/
def disconnectHandler (sid : String) (now : Nat) (conn : ConnState)
    (rooms : Rooms) : StepResult :=
  if jsTruthy conn.currentRoom && jsTruthy conn.currentNickname then
    let room := conn.currentRoom.getD ""
    let rooms' := removeUserFromRoom room sid rooms
    { conn := conn
      rooms := rooms'
      events := [Event.userLeft
        (((roomsGetD room rooms').filter (fun u => u.socketId ≠ sid)).map
          (fun u => u.socketId))
        (conn.currentNickname.getD "") now] }
  else { conn := conn, rooms := rooms, events := [] }

/-! ### Registry lemmas -/

theorem jsTruthy_some {s : String} (h : s ≠ "") : jsTruthy (some s) = true := by
  simp [jsTruthy, h]

theorem roomsGet_roomsSet_self (k : String) (v : List MemberEntry)
    (r : Rooms) : roomsGet k (roomsSet k v r) = some v := by
  induction r with
  | nil => simp [roomsGet, roomsSet]
  | cons p rest ih =>
    obtain ⟨k', v'⟩ := p
    by_cases h : k' = k
    · simp [roomsGet, roomsSet, h]
    · simp [roomsGet, roomsSet, h, ih]

theorem roomsGet_roomsSet_ne {k' k : String} (h : k' ≠ k)
    (v : List MemberEntry) (r : Rooms) :
    roomsGet k' (roomsSet k v r) = roomsGet k' r := by
  induction r with
  | nil => simp [roomsGet, roomsSet, h, Ne.symm h]
  | cons p rest ih =>
    obtain ⟨k'', v'⟩ := p
    by_cases h2 : k'' = k
    · subst h2
      simp [roomsGet, roomsSet, Ne.symm h]
    · by_cases h3 : k'' = k'
      · simp [roomsGet, roomsSet, h2, h3, h]
      · simp [roomsGet, roomsSet, h2, h3, ih]

theorem roomsGet_roomsDelete_self (k : String) (r : Rooms) :
    roomsGet k (roomsDelete k r) = none := by
  induction r with
  | nil => simp [roomsGet, roomsDelete]
  | cons p rest ih =>
    obtain ⟨k', v⟩ := p
    by_cases h : k' = k
    · simpa [roomsDelete, List.filter_cons, h] using ih
    · simpa [roomsDelete, roomsGet, List.filter_cons, h] using ih

theorem roomsGet_roomsDelete_ne {k' k : String} (h : k' ≠ k) (r : Rooms) :
    roomsGet k' (roomsDelete k r) = roomsGet k' r := by
  induction r with
  | nil => simp [roomsGet, roomsDelete]
  | cons p rest ih =>
    obtain ⟨k'', v⟩ := p
    by_cases h2 : k'' = k
    · subst h2
      simpa [roomsDelete, roomsGet, List.filter_cons, Ne.symm h] using ih
    · by_cases h3 : k'' = k'
      · simp [roomsDelete, roomsGet, List.filter_cons, h2, h3, h]
      · simpa [roomsDelete, roomsGet, List.filter_cons, h2, h3] using ih

theorem roomsGet_mem {k : String} {v : List MemberEntry} {r : Rooms}
    (h : roomsGet k r = some v) : (k, v) ∈ r := by
  induction r with
  | nil => simp [roomsGet] at h
  | cons p rest ih =>
    obtain ⟨k', v'⟩ := p
    by_cases h2 : k' = k
    · subst h2
      simp [roomsGet] at h
      simp [h]
    · simp only [roomsGet, if_neg h2] at h
      exact List.mem_cons_of_mem _ (ih h)

theorem removeFirst_of_no_match {sid : String} {l : List MemberEntry}
    (h : ∀ u ∈ l, u.socketId ≠ sid) : removeFirst sid l = l := by
  induction l with
  | nil => rfl
  | cons u rest ih =>
    have h1 : u.socketId ≠ sid := h u (by simp)
    simp only [removeFirst, if_neg h1]
    rw [ih (fun u hu => h u (by simp [hu]))]

theorem removeFirst_append_of_no_match {sid : String} {l1 : List MemberEntry}
    (l2 : List MemberEntry) (h : ∀ u ∈ l1, u.socketId ≠ sid) :
    removeFirst sid (l1 ++ l2) = l1 ++ removeFirst sid l2 := by
  induction l1 with
  | nil => rfl
  | cons u rest ih =>
    have h1 : u.socketId ≠ sid := h u (by simp)
    simp only [List.cons_append, removeFirst, if_neg h1]
    congr 1
    exact ih (fun u hu => h u (by simp [hu]))

theorem mem_removeFirst {sid : String} {u : MemberEntry}
    {l : List MemberEntry} (h : u ∈ removeFirst sid l) : u ∈ l := by
  induction l with
  | nil => simp [removeFirst] at h
  | cons w rest ih =>
    by_cases h2 : w.socketId = sid
    · simp only [removeFirst, if_pos h2] at h
      exact List.mem_cons_of_mem _ h
    · simp only [removeFirst, if_neg h2, List.mem_cons] at h
      rcases h with h | h
      · simp [h]
      · exact List.mem_cons_of_mem _ (ih h)

/-- `removeFirst` drops exactly one matching entry (counting by the
`socketId` match predicate); with no match it drops nothing, so the
count is truncated-subtraction exact in general. -/
theorem removeFirst_match_count (sid : String) (l : List MemberEntry) :
    ((removeFirst sid l).filter (fun u => u.socketId = sid)).length =
      (l.filter (fun u => u.socketId = sid)).length - 1 := by
  induction l with
  | nil => rfl
  | cons u rest ih =>
    by_cases h : u.socketId = sid
    · simp [removeFirst, h, List.filter_cons]
    · simp [removeFirst, h, List.filter_cons, ih]

theorem removeFirst_length_of_match {sid : String} {l : List MemberEntry}
    (h : ∃ u ∈ l, u.socketId = sid) :
    (removeFirst sid l).length + 1 = l.length := by
  induction l with
  | nil => simp at h
  | cons u rest ih =>
    by_cases h2 : u.socketId = sid
    · simp [removeFirst, h2]
    · obtain ⟨w, hw, hws⟩ := h
      rcases List.mem_cons.mp hw with h3 | h3
      · exact absurd (h3 ▸ hws) h2
      · simp only [removeFirst, if_neg h2, List.length_cons]
        rw [← ih ⟨w, h3, hws⟩]

/-- A positive match count forces a matching element. -/
theorem exists_match_of_count_pos {sid : String} {l : List MemberEntry}
    (h : 0 < (l.filter (fun u => u.socketId = sid)).length) :
    ∃ u ∈ l, u.socketId = sid := by
  obtain ⟨u, hu⟩ := List.exists_mem_of_length_pos h
  have := List.mem_filter.mp hu
  exact ⟨u, this.1, by simpa using this.2⟩

/-- A zero match count means no entry matches. -/
theorem no_match_of_count_zero {sid : String} {l : List MemberEntry}
    (h : (l.filter (fun u => u.socketId = sid)).length = 0) :
    ∀ u ∈ l, u.socketId ≠ sid := by
  intro u hu hus
  have : u ∈ l.filter (fun u => u.socketId = sid) :=
    List.mem_filter.mpr ⟨hu, by simpa using hus⟩
  rw [List.length_eq_zero] at h
  simp [h] at this

theorem roomsGet_removeUserFromRoom_ne {X R : String} (h : X ≠ R)
    (sid : String) (r : Rooms) :
    roomsGet X (removeUserFromRoom R sid r) = roomsGet X r := by
  unfold removeUserFromRoom
  cases hR : roomsGet R r with
  | none => rfl
  | some room =>
    by_cases hl : (removeFirst sid room).length = 0
    · simp [hl, roomsGet_roomsDelete_ne h]
    · simp [hl, roomsGet_roomsSet_ne h]

theorem roomsGetD_removeUserFromRoom_self {R : String} {r : Rooms}
    {ms : List MemberEntry} (sid : String) (hms : roomsGet R r = some ms) :
    roomsGetD R (removeUserFromRoom R sid r) = removeFirst sid ms := by
  unfold removeUserFromRoom
  rw [hms]
  by_cases hl : (removeFirst sid ms).length = 0
  · rw [List.length_eq_zero] at hl
    simp [roomsGetD, hl, roomsGet_roomsDelete_self]
  · simp [hl, roomsGetD, roomsGet_roomsSet_self]

theorem roomsGet_none_removeUserFromRoom {X : String} {r : Rooms}
    (R sid : String) (h : roomsGet X r = none) :
    roomsGet X (removeUserFromRoom R sid r) = none := by
  by_cases hXR : X = R
  · subst hXR
    unfold removeUserFromRoom
    rw [h]
    exact h
  · rw [roomsGet_removeUserFromRoom_ne hXR]
    exact h

theorem roomsGet_addMember_self (roomId : String) (e : MemberEntry)
    (r : Rooms) :
    roomsGet roomId (addMember roomId e r) = some (roomsGetD roomId r ++ [e]) := by
  unfold addMember
  by_cases hh : roomsHas roomId r
  · simp only [hh, if_true]
    exact roomsGet_roomsSet_self roomId _ r
  · simp only [hh, Bool.false_eq_true, if_false]
    have hnone : roomsGet roomId r = none := by
      unfold roomsHas at hh
      exact Option.not_isSome_iff_eq_none.mp (by simpa using hh)
    rw [roomsGet_roomsSet_self]
    simp [roomsGetD, hnone, roomsGet_roomsSet_self]

theorem roomsGet_addMember_ne {X roomId : String} (h : X ≠ roomId)
    (e : MemberEntry) (r : Rooms) :
    roomsGet X (addMember roomId e r) = roomsGet X r := by
  unfold addMember
  by_cases hh : roomsHas roomId r
  · simp only [hh, if_true]
    exact roomsGet_roomsSet_ne h _ r
  · simp only [hh, Bool.false_eq_true, if_false]
    rw [roomsGet_roomsSet_ne h, roomsGet_roomsSet_ne h]

/-- Every member list readable out of the registry after a
`removeUserFromRoom` already occurred in the registry before it, up to
dropping the removed member: membership is only ever shrunk. -/
theorem mem_roomsGetD_removeUserFromRoom {X R sid : String} {r : Rooms}
    {u : MemberEntry} (h : u ∈ roomsGetD X (removeUserFromRoom R sid r)) :
    u ∈ roomsGetD X r := by
  by_cases hXR : X = R
  · subst hXR
    cases hms : roomsGet X r with
    | none =>
      rw [show removeUserFromRoom X sid r = r by unfold removeUserFromRoom; rw [hms]] at h
      exact h
    | some ms =>
      rw [roomsGetD_removeUserFromRoom_self sid hms] at h
      simp [roomsGetD, hms]
      exact mem_removeFirst h
  · rw [roomsGetD, roomsGet_removeUserFromRoom_ne hXR] at h
    exact h

/-- The member list of the joined room after `join-room`: whatever
survived the leave-previous step, with the joiner appended. -/
theorem join_members_self (sid nick roomId : String) (now : Nat)
    (conn : ConnState) (rooms : Rooms) :
    roomsGetD roomId (joinRoomHandler sid nick roomId now conn rooms).rooms =
      roomsGetD roomId (leavePrevious sid conn rooms) ++ [⟨sid, nick⟩] := by
  show roomsGetD roomId (addMember roomId ⟨sid, nick⟩ (leavePrevious sid conn rooms)) = _
  rw [roomsGetD, roomsGet_addMember_self]
  rfl

/-- `join-room` touches no room other than the joined one beyond the
leave-previous step. -/
theorem join_members_ne {X roomId : String} (h : X ≠ roomId)
    (sid nick : String) (now : Nat) (conn : ConnState) (rooms : Rooms) :
    roomsGet X (joinRoomHandler sid nick roomId now conn rooms).rooms =
      roomsGet X (leavePrevious sid conn rooms) := by
  show roomsGet X (addMember roomId ⟨sid, nick⟩ (leavePrevious sid conn rooms)) = _
  exact roomsGet_addMember_ne h _ _

theorem filter_ne_of_no_match {sid : String} {l : List MemberEntry}
    (h : ∀ u ∈ l, u.socketId ≠ sid) :
    l.filter (fun u => u.socketId ≠ sid) = l :=
  List.filter_eq_self.mpr (fun u hu => by simpa using h u hu)

/-! ### Event router claims -/

/-- **C3.** Each `join-room` call emits exactly three events, in this
order: the fresh identity unicast to the joiner (`nickname-assigned`),
the join notification to the room's members excluding the joiner
(`user-joined`), and the member identity list unicast to the joiner
(`participants-list`) — a list that contains the joiner's own new
identity, while the join-notification recipient set never contains the
joiner. -/
theorem join_event_order (sid nick roomId : String) (now : Nat)
    (conn : ConnState) (rooms : Rooms) :
    (joinRoomHandler sid nick roomId now conn rooms).events =
        [Event.nicknameAssigned sid nick,
         Event.userJoined
           (((roomsGetD roomId (joinRoomHandler sid nick roomId now conn rooms).rooms).filter
             (fun u => u.socketId ≠ sid)).map (fun u => u.socketId)) nick now,
         Event.participantsList sid
           ((roomsGetD roomId (joinRoomHandler sid nick roomId now conn rooms).rooms).map
             (fun u => u.nickname))] ∧
      nick ∈ (roomsGetD roomId (joinRoomHandler sid nick roomId now conn rooms).rooms).map
          (fun u => u.nickname) ∧
      sid ∉ (((roomsGetD roomId (joinRoomHandler sid nick roomId now conn rooms).rooms).filter
          (fun u => u.socketId ≠ sid)).map (fun u => u.socketId)) := by
  refine ⟨rfl, ?_, ?_⟩
  · rw [join_members_self]
    simp
  · intro hmem
    obtain ⟨u, hu, hus⟩ := List.mem_map.mp hmem
    have := (List.mem_filter.mp hu).2
    simp [hus] at this

/-- **C6.** A connection in the initial `Unjoined` state (no current
room, no identity) has `send-message` and `send-voice` silently
dropped: no event is emitted to anyone, no error reply goes back to
the sender, and the state is untouched (the code only writes a
`console.warn` diagnostic, which is outside the state/event model). -/
theorem unjoined_send_dropped (sid content messageId url rand : String)
    (duration : Option Nat) (now : Nat) (rooms : Rooms) :
    sendMessageHandler sid content now rand ⟨none, none⟩ rooms =
        ⟨⟨none, none⟩, rooms, []⟩ ∧
      sendVoiceHandler sid messageId url duration now ⟨none, none⟩ rooms =
        ⟨⟨none, none⟩, rooms, []⟩ :=
  ⟨rfl, rfl⟩

/-- **C4 (counterexample).** The claim quantifies over *every*
connection in state `InRoom`.  Joining the room whose id is the empty
string is accepted — the connection becomes a registry member of room
`""` with a fresh identity — yet a subsequent `send-message` emits
nothing, because the handler's guard `!currentRoom` treats the empty
string as falsy.  So the broadcast promised by the claim is missing. -/
theorem send_text_empty_room_counterexample :
    ((joinRoomHandler "s1" "User1111" "" 0 ⟨none, none⟩ []).conn =
        ⟨some "", some "User1111"⟩) ∧
      ((⟨"s1", "User1111"⟩ : MemberEntry) ∈
        roomsGetD "" (joinRoomHandler "s1" "User1111" "" 0 ⟨none, none⟩ []).rooms) ∧
      (sendMessageHandler "s1" "hi" 5 "abc123xyz"
        (joinRoomHandler "s1" "User1111" "" 0 ⟨none, none⟩ []).conn
        (joinRoomHandler "s1" "User1111" "" 0 ⟨none, none⟩ []).rooms).events = [] := by
  decide

/-- **C4 (amended).** For every connection in state `InRoom` whose
room id is a non-empty string (the guard reads JS truthiness, so the
empty-string room id is treated as not joined; generated identities
are never empty), `send-message` broadcasts exactly one `new-message`
to every member of the room — the sender among them — carrying type
`text`, the given content, the sender's current identity as author,
the timestamp, and the freshly generated message id; the registry is
untouched. -/
theorem send_text_broadcasts (sid room nick content rand : String)
    (now : Nat) (rooms : Rooms) (hroom : room ≠ "") (hnick : nick ≠ "")
    (hmem : sid ∈ (roomsGetD room rooms).map (fun u => u.socketId)) :
    (sendMessageHandler sid content now rand ⟨some room, some nick⟩ rooms).events =
        [Event.newMessage ((roomsGetD room rooms).map (fun u => u.socketId))
          ⟨mkMessageId now rand, "text", some content, none, none, nick, now⟩] ∧
      sid ∈ (roomsGetD room rooms).map (fun u => u.socketId) ∧
      (sendMessageHandler sid content now rand ⟨some room, some nick⟩ rooms).rooms = rooms ∧
      (sendMessageHandler sid content now rand ⟨some room, some nick⟩ rooms).conn =
        ⟨some room, some nick⟩ := by
  have hc : (jsTruthy (some room) && jsTruthy (some nick)) = true := by
    rw [jsTruthy_some hroom, jsTruthy_some hnick]
    rfl
  unfold sendMessageHandler
  rw [if_pos hc]
  exact ⟨rfl, hmem, rfl, rfl⟩

/-- Witness for C4: a two-member room; the sender's own socket is
among the recipients of the one broadcast. -/
theorem send_text_broadcasts_witness :
    (sendMessageHandler "s1" "hi" 5 "abc123xyz" ⟨some "room-1", some "User1000"⟩
        [("room-1", [⟨"s1", "User1000"⟩, ⟨"s2", "Guest2000"⟩])]).events =
      [Event.newMessage ["s1", "s2"]
        ⟨mkMessageId 5 "abc123xyz", "text", some "hi", none, none, "User1000", 5⟩] := by
  have h := send_text_broadcasts "s1" "room-1" "User1000" "hi" "abc123xyz" 5
    [("room-1", [⟨"s1", "User1000"⟩, ⟨"s2", "Guest2000"⟩])]
    (by decide) (by decide) (by decide)
  rw [h.1]
  decide

/-- **C5 (counterexample).** The claim quantifies over *every*
connection in state `InRoom`.  A connection that joined the
empty-string room is a registry member with an identity, but on
disconnect the guard `if (currentRoom && currentNickname)` reads the
empty string as falsy: no member entry is removed (the entry dangles)
and no departure notification is emitted, where the claim promises
both. -/
theorem disconnect_empty_room_counterexample :
    ((joinRoomHandler "s1" "User1111" "" 0 ⟨none, none⟩ []).conn =
        ⟨some "", some "User1111"⟩) ∧
      (disconnectHandler "s1" 5
        (joinRoomHandler "s1" "User1111" "" 0 ⟨none, none⟩ []).conn
        (joinRoomHandler "s1" "User1111" "" 0 ⟨none, none⟩ []).rooms).events = [] ∧
      roomsGetD ""
        (disconnectHandler "s1" 5
          (joinRoomHandler "s1" "User1111" "" 0 ⟨none, none⟩ []).conn
          (joinRoomHandler "s1" "User1111" "" 0 ⟨none, none⟩ []).rooms).rooms =
        [⟨"s1", "User1111"⟩] := by
  decide

/-- **C5 (amended).** For a connection in state `InRoom` with a
non-empty room id (the disconnect guard reads JS truthiness, so the
empty-string room id is skipped — see the counterexample), disconnect
removes the connection's one member entry from its room, deletes the
room when that entry was the last one, and emits exactly one
`user-left` carrying the connection's identity whose recipient set is
the room's membership *after* the mutation (so the registry update
precedes the notification and the departing connection is excluded);
rooms other than the connection's are untouched.  From `Unjoined`
(`currentRoom` still `null`), disconnect emits nothing and changes
nothing. -/
theorem disconnect_removes_then_notifies (sid room nick : String)
    (now : Nat) (rooms : Rooms) (ms : List MemberEntry)
    (hroom : room ≠ "") (hnick : nick ≠ "")
    (hms : roomsGet room rooms = some ms)
    (hone : (ms.filter (fun u => u.socketId = sid)).length = 1) :
    (∀ u ∈ roomsGetD room (disconnectHandler sid now ⟨some room, some nick⟩ rooms).rooms,
        u.socketId ≠ sid) ∧
      (roomsGetD room (disconnectHandler sid now ⟨some room, some nick⟩ rooms).rooms).length + 1 =
        ms.length ∧
      (∀ u, ms = [u] →
        roomsGet room (disconnectHandler sid now ⟨some room, some nick⟩ rooms).rooms = none) ∧
      (disconnectHandler sid now ⟨some room, some nick⟩ rooms).events =
        [Event.userLeft
          ((roomsGetD room (disconnectHandler sid now ⟨some room, some nick⟩ rooms).rooms).map
            (fun u => u.socketId)) nick now] ∧
      (∀ X, X ≠ room →
        roomsGet X (disconnectHandler sid now ⟨some room, some nick⟩ rooms).rooms =
          roomsGet X rooms) ∧
      (∀ (conn : ConnState) (r : Rooms), conn.currentRoom = none →
        disconnectHandler sid now conn r = ⟨conn, r, []⟩) := by
  have hc : (jsTruthy (some room) && jsTruthy (some nick)) = true := by
    rw [jsTruthy_some hroom, jsTruthy_some hnick]
    rfl
  have hres : disconnectHandler sid now ⟨some room, some nick⟩ rooms =
      ⟨⟨some room, some nick⟩, removeUserFromRoom room sid rooms,
       [Event.userLeft
         (((roomsGetD room (removeUserFromRoom room sid rooms)).filter
           (fun u => u.socketId ≠ sid)).map (fun u => u.socketId)) nick now]⟩ := by
    unfold disconnectHandler
    rw [if_pos hc]
    rfl
  have hD : roomsGetD room (removeUserFromRoom room sid rooms) = removeFirst sid ms :=
    roomsGetD_removeUserFromRoom_self sid hms
  have hnosid : ∀ u ∈ removeFirst sid ms, u.socketId ≠ sid := by
    apply no_match_of_count_zero
    rw [removeFirst_match_count, hone]
  refine ⟨?_, ?_, ?_, ?_, ?_, ?_⟩
  · rw [hres]
    simp only [hD]
    exact hnosid
  · rw [hres]
    simp only [hD]
    exact removeFirst_length_of_match (exists_match_of_count_pos (by omega))
  · intro u hu
    subst hu
    have husid : u.socketId = sid := by
      rcases @exists_match_of_count_pos sid [u] (by omega) with ⟨w, hw, hws⟩
      simpa using (List.mem_singleton.mp hw) ▸ hws
    rw [hres]
    show roomsGet room (removeUserFromRoom room sid rooms) = none
    unfold removeUserFromRoom
    rw [hms]
    simp [removeFirst, husid, roomsGet_roomsDelete_self]
  · rw [hres]
    simp only [hD]
    rw [filter_ne_of_no_match hnosid]
  · intro X hX
    rw [hres]
    exact roomsGet_removeUserFromRoom_ne hX sid rooms
  · intro conn r hcr
    unfold disconnectHandler
    rw [if_neg]
    rw [hcr]
    simp [jsTruthy]

/-- Witness for C5: a two-member room; the departing socket's entry is
gone, the remaining member is the sole recipient. -/
theorem disconnect_removes_then_notifies_witness :
    (disconnectHandler "s1" 7 ⟨some "room-1", some "User1000"⟩
        [("room-1", [⟨"s1", "User1000"⟩, ⟨"s2", "Guest2000"⟩])]).events =
      [Event.userLeft
        ((roomsGetD "room-1"
          (disconnectHandler "s1" 7 ⟨some "room-1", some "User1000"⟩
            [("room-1", [⟨"s1", "User1000"⟩, ⟨"s2", "Guest2000"⟩])]).rooms).map
          (fun u => u.socketId)) "User1000" 7] :=
  (disconnect_removes_then_notifies "s1" "room-1" "User1000" 7
    [("room-1", [⟨"s1", "User1000"⟩, ⟨"s2", "Guest2000"⟩])]
    [⟨"s1", "User1000"⟩, ⟨"s2", "Guest2000"⟩]
    (by decide) (by decide) (by decide) (by decide)).2.2.2.1

/-- **C10 (counterexample).** The claim quantifies over every
connection in state `InRoom(r, identity)` rejoining its own room `r`.
For the empty-string room id the leave-previous step is skipped (the
JS guard `if (currentRoom)` reads `""` as falsy), so after the rejoin
the room holds *two* entries for the connection, not exactly one. -/
theorem rejoin_empty_room_counterexample :
    ((joinRoomHandler "s1" "User1111" "" 0 ⟨none, none⟩ []).conn =
        ⟨some "", some "User1111"⟩) ∧
      roomsGetD ""
        (joinRoomHandler "s1" "User2222" "" 1
          (joinRoomHandler "s1" "User1111" "" 0 ⟨none, none⟩ []).conn
          (joinRoomHandler "s1" "User1111" "" 0 ⟨none, none⟩ []).rooms).rooms =
        [⟨"s1", "User1111"⟩, ⟨"s1", "User2222"⟩] := by
  decide

/-- **C10 (amended).** For a connection in state `InRoom(r, oldNick)`
with `r` a non-empty string (for the empty-string room id the
leave-previous step is skipped and the old entry leaks — see the
counterexample), a `join-room` for the same `r` succeeds: the fresh
identity replaces the old one, the room afterwards holds exactly one
entry for the connection and it carries the new identity, the other
members receive a `user-joined` for the new identity and no
`user-left` is emitted for the old one, and when the connection was
the sole member the room is deleted by the leave step and recreated
within the same call holding only the new entry. -/
theorem rejoin_same_room (sid oldNick nick r : String) (now : Nat)
    (rooms : Rooms) (ms : List MemberEntry)
    (hr : r ≠ "") (hms : roomsGet r rooms = some ms)
    (hone : (ms.filter (fun u => u.socketId = sid)).length = 1) :
    (joinRoomHandler sid nick r now ⟨some r, some oldNick⟩ rooms).conn =
        ⟨some r, some nick⟩ ∧
      roomsGetD r (joinRoomHandler sid nick r now ⟨some r, some oldNick⟩ rooms).rooms =
        removeFirst sid ms ++ [⟨sid, nick⟩] ∧
      (roomsGetD r (joinRoomHandler sid nick r now ⟨some r, some oldNick⟩ rooms).rooms).filter
          (fun u => u.socketId = sid) = [⟨sid, nick⟩] ∧
      (joinRoomHandler sid nick r now ⟨some r, some oldNick⟩ rooms).events =
        [Event.nicknameAssigned sid nick,
         Event.userJoined ((removeFirst sid ms).map (fun u => u.socketId)) nick now,
         Event.participantsList sid
           ((removeFirst sid ms ++ [(⟨sid, nick⟩ : MemberEntry)]).map
             (fun u => u.nickname))] ∧
      (joinRoomHandler sid nick r now ⟨some r, some oldNick⟩ rooms).events.filter
          Event.isUserLeft = [] ∧
      (∀ u, ms = [u] →
        roomsGet r (leavePrevious sid ⟨some r, some oldNick⟩ rooms) = none ∧
          roomsGetD r (joinRoomHandler sid nick r now ⟨some r, some oldNick⟩ rooms).rooms =
            [⟨sid, nick⟩]) := by
  have hleave : leavePrevious sid ⟨some r, some oldNick⟩ rooms =
      removeUserFromRoom r sid rooms := by
    unfold leavePrevious
    rw [if_pos (jsTruthy_some hr)]
    rfl
  have hD : roomsGetD r (removeUserFromRoom r sid rooms) = removeFirst sid ms :=
    roomsGetD_removeUserFromRoom_self sid hms
  have hnosid : ∀ u ∈ removeFirst sid ms, u.socketId ≠ sid := by
    apply no_match_of_count_zero
    rw [removeFirst_match_count, hone]
  have hmembers : roomsGetD r
      (joinRoomHandler sid nick r now ⟨some r, some oldNick⟩ rooms).rooms =
      removeFirst sid ms ++ [⟨sid, nick⟩] := by
    rw [join_members_self, hleave, hD]
  refine ⟨rfl, hmembers, ?_, ?_, ?_, ?_⟩
  · rw [hmembers, List.filter_append]
    rw [List.filter_eq_nil_iff.mpr (fun u hu => by simpa using hnosid u hu)]
    simp
  · show [Event.nicknameAssigned sid nick,
      Event.userJoined
        (((roomsGetD r (joinRoomHandler sid nick r now ⟨some r, some oldNick⟩ rooms).rooms).filter
          (fun u => u.socketId ≠ sid)).map (fun u => u.socketId)) nick now,
      Event.participantsList sid
        ((roomsGetD r (joinRoomHandler sid nick r now ⟨some r, some oldNick⟩ rooms).rooms).map
          (fun u => u.nickname))] = _
    rw [hmembers, List.filter_append, filter_ne_of_no_match hnosid]
    simp
  · rfl
  · intro u hu
    subst hu
    have husid : u.socketId = sid := by
      rcases @exists_match_of_count_pos sid [u] (by omega) with ⟨w, hw, hws⟩
      simpa using (List.mem_singleton.mp hw) ▸ hws
    have hrf : removeFirst sid [u] = [] := by
      simp [removeFirst, husid]
    constructor
    · rw [hleave]
      unfold removeUserFromRoom
      rw [hms]
      simp [hrf, roomsGet_roomsDelete_self]
    · rw [hmembers, hrf]
      rfl

/-- Witness for C10: sole member of room "room-1" rejoins it; the room
is deleted by the leave step, recreated, and ends with exactly the new
entry while the old identity is nowhere notified as departed. -/
theorem rejoin_same_room_witness :
    roomsGet "room-1" (leavePrevious "s1" ⟨some "room-1", some "User1000"⟩
        [("room-1", [⟨"s1", "User1000"⟩])]) = none ∧
      roomsGetD "room-1"
        (joinRoomHandler "s1" "Guest2000" "room-1" 3 ⟨some "room-1", some "User1000"⟩
          [("room-1", [⟨"s1", "User1000"⟩])]).rooms = [⟨"s1", "Guest2000"⟩] :=
  (rejoin_same_room "s1" "User1000" "Guest2000" "room-1" 3
    [("room-1", [⟨"s1", "User1000"⟩])] [⟨"s1", "User1000"⟩]
    (by decide) (by decide) (by decide)).2.2.2.2.2 ⟨"s1", "User1000"⟩ rfl

/-- **C1 (counterexample).** Two failures of the claim as stated.
First, with "s2" already in room "a", connection "s1" joins "a" and
then joins "b": the second join emits *no* `user-left` at all, where
the claim promises exactly one departure notification to room "a"'s
remaining member (the `join-room` handler calls `removeUserFromRoom`
but never emits).  Second, with room id `A = ""`: after join("") then
join("b") the connection still appears in room ""'s member set,
because the leave-previous guard `if (currentRoom)` reads the empty
string as falsy. -/
theorem join_then_join_counterexample :
    ((joinRoomHandler "s1" "User3333" "b" 2
        (joinRoomHandler "s1" "User2222" "a" 1 ⟨none, none⟩
          (joinRoomHandler "s2" "Guest1111" "a" 0 ⟨none, none⟩ []).rooms).conn
        (joinRoomHandler "s1" "User2222" "a" 1 ⟨none, none⟩
          (joinRoomHandler "s2" "Guest1111" "a" 0 ⟨none, none⟩ []).rooms).rooms).events.filter
      Event.isUserLeft = []) ∧
      ((⟨"s1", "User1111"⟩ : MemberEntry) ∈
        roomsGetD ""
          (joinRoomHandler "s1" "User2222" "b" 1
            (joinRoomHandler "s1" "User1111" "" 0 ⟨none, none⟩ []).conn
            (joinRoomHandler "s1" "User1111" "" 0 ⟨none, none⟩ []).rooms).rooms) := by
  decide

/-- **C1 (amended).** A fresh connection (socket id appearing nowhere
in the registry) that joins room `A` (a non-empty id — the
empty-string room id leaks its entry, see the counterexample) and then
joins a different room `B` ends as a member of exactly room `B`: its
entry carries the second-join identity, its handle appears in no room
other than `B` — in particular not in `A` — and room `A`'s remaining
members receive *no* departure notification (neither join emits any
`user-left`; the implicit leave is silent). -/
theorem join_then_join_silent_leave (sid nickA nickB A B : String)
    (now1 now2 : Nat) (rooms0 : Rooms) (hA : A ≠ "") (hAB : A ≠ B)
    (hfresh : ∀ p ∈ rooms0, ∀ u ∈ p.2, u.socketId ≠ sid) :
    (joinRoomHandler sid nickB B now2
        (joinRoomHandler sid nickA A now1 ⟨none, none⟩ rooms0).conn
        (joinRoomHandler sid nickA A now1 ⟨none, none⟩ rooms0).rooms).conn =
        ⟨some B, some nickB⟩ ∧
      ((⟨sid, nickB⟩ : MemberEntry) ∈
        roomsGetD B (joinRoomHandler sid nickB B now2
          (joinRoomHandler sid nickA A now1 ⟨none, none⟩ rooms0).conn
          (joinRoomHandler sid nickA A now1 ⟨none, none⟩ rooms0).rooms).rooms) ∧
      (∀ u ∈ roomsGetD A (joinRoomHandler sid nickB B now2
          (joinRoomHandler sid nickA A now1 ⟨none, none⟩ rooms0).conn
          (joinRoomHandler sid nickA A now1 ⟨none, none⟩ rooms0).rooms).rooms,
        u.socketId ≠ sid) ∧
      (∀ X, X ≠ B → ∀ u ∈ roomsGetD X (joinRoomHandler sid nickB B now2
          (joinRoomHandler sid nickA A now1 ⟨none, none⟩ rooms0).conn
          (joinRoomHandler sid nickA A now1 ⟨none, none⟩ rooms0).rooms).rooms,
        u.socketId ≠ sid) ∧
      (joinRoomHandler sid nickA A now1 ⟨none, none⟩ rooms0).events.filter
          Event.isUserLeft = [] ∧
      (joinRoomHandler sid nickB B now2
          (joinRoomHandler sid nickA A now1 ⟨none, none⟩ rooms0).conn
          (joinRoomHandler sid nickA A now1 ⟨none, none⟩ rooms0).rooms).events.filter
          Event.isUserLeft = [] := by
  have hfreshD : ∀ X : String, ∀ u ∈ roomsGetD X rooms0, u.socketId ≠ sid := by
    intro X u hu
    cases hg : roomsGet X rooms0 with
    | none => rw [roomsGetD, hg] at hu; simp at hu
    | some l =>
      rw [roomsGetD, hg] at hu
      exact hfresh (X, l) (roomsGet_mem hg) u hu
  have hc : (joinRoomHandler sid nickA A now1 ⟨none, none⟩ rooms0).conn =
      ⟨some A, some nickA⟩ := rfl
  rw [hc]
  have hget1 : roomsGet A (joinRoomHandler sid nickA A now1 ⟨none, none⟩ rooms0).rooms =
      some (roomsGetD A rooms0 ++ [⟨sid, nickA⟩]) := by
    show roomsGet A (addMember A ⟨sid, nickA⟩ (leavePrevious sid ⟨none, none⟩ rooms0)) = _
    rw [roomsGet_addMember_self]
    rfl
  have hleave2 : leavePrevious sid ⟨some A, some nickA⟩
      (joinRoomHandler sid nickA A now1 ⟨none, none⟩ rooms0).rooms =
      removeUserFromRoom A sid (joinRoomHandler sid nickA A now1 ⟨none, none⟩ rooms0).rooms := by
    unfold leavePrevious
    rw [if_pos (jsTruthy_some hA)]
    rfl
  have hremA : roomsGetD A (removeUserFromRoom A sid
      (joinRoomHandler sid nickA A now1 ⟨none, none⟩ rooms0).rooms) =
      roomsGetD A rooms0 := by
    rw [roomsGetD_removeUserFromRoom_self sid hget1]
    rw [removeFirst_append_of_no_match _ (hfreshD A)]
    simp [removeFirst]
  refine ⟨rfl, ?_, ?_, ?_, rfl, rfl⟩
  · rw [join_members_self]
    simp
  · intro u hu
    rw [roomsGetD, join_members_ne hAB, hleave2] at hu
    have hu' : u ∈ roomsGetD A rooms0 := by
      rw [← hremA]
      exact hu
    exact hfreshD A u hu'
  · intro X hX u hu
    rw [roomsGetD, join_members_ne hX, hleave2] at hu
    by_cases hXA : X = A
    · subst hXA
      have hu' : u ∈ roomsGetD X rooms0 := by
        rw [← hremA]
        exact hu
      exact hfreshD X u hu'
    · rw [show roomsGet X (removeUserFromRoom A sid
          (joinRoomHandler sid nickA A now1 ⟨none, none⟩ rooms0).rooms) =
          roomsGet X rooms0 by
        rw [roomsGet_removeUserFromRoom_ne hXA, join_members_ne hXA]
        rfl] at hu
      exact hfreshD X u hu

/-- Witness for C1: a fresh "s1" joins "a" (already holding "s2") and
then "b". -/
theorem join_then_join_silent_leave_witness :
    (joinRoomHandler "s1" "User2000" "b" 1
        (joinRoomHandler "s1" "User1000" "a" 0 ⟨none, none⟩
          [("a", [⟨"s2", "Guest1111"⟩])]).conn
        (joinRoomHandler "s1" "User1000" "a" 0 ⟨none, none⟩
          [("a", [⟨"s2", "Guest1111"⟩])]).rooms).conn = ⟨some "b", some "User2000"⟩ :=
  (join_then_join_silent_leave "s1" "User1000" "User2000" "a" "b" 0 1
    [("a", [⟨"s2", "Guest1111"⟩])] (by decide) (by decide) (by decide)).1

/-! ### Registry reachability invariant -/

/-- The invariant "every room readable out of the registry has a
non-empty member set". -/
def roomsWF (rooms : Rooms) : Prop :=
  ∀ k ms, roomsGet k rooms = some ms → ms ≠ []

theorem roomsWF_removeUserFromRoom {rooms : Rooms} (h : roomsWF rooms)
    (R sid : String) : roomsWF (removeUserFromRoom R sid rooms) := by
  intro k ms hk
  by_cases hkR : k = R
  · subst hkR
    cases hg : roomsGet k rooms with
    | none =>
      rw [show removeUserFromRoom k sid rooms = rooms by
        unfold removeUserFromRoom; rw [hg]] at hk
      exact h k ms hk
    | some l =>
      by_cases hl : removeFirst sid l = []
      · unfold removeUserFromRoom at hk
        rw [hg] at hk
        simp [hl, roomsGet_roomsDelete_self] at hk
      · have h1 : roomsGetD k (removeUserFromRoom k sid rooms) = removeFirst sid l :=
          roomsGetD_removeUserFromRoom_self sid hg
        rw [roomsGetD, hk] at h1
        simp at h1
        rw [h1]
        exact hl
  · rw [roomsGet_removeUserFromRoom_ne hkR] at hk
    exact h k ms hk

theorem roomsWF_addMember {rooms : Rooms} (h : roomsWF rooms)
    (roomId : String) (e : MemberEntry) :
    roomsWF (addMember roomId e rooms) := by
  intro k ms hk
  by_cases hkR : k = roomId
  · subst hkR
    rw [roomsGet_addMember_self] at hk
    have h2 : ms = roomsGetD k rooms ++ [e] := by
      injection hk with h3
      exact h3.symm
    rw [h2]
    simp
  · rw [roomsGet_addMember_ne hkR] at hk
    exact h k ms hk

/-- Reachability of registry states: the registry starts empty and
evolves only through `join-room` and `disconnect` steps (the send
handlers never touch it).  The per-connection state is universally
quantified, so this over-approximates the states a real run can
produce. -/
inductive Reachable : Rooms → Prop where
  | init : Reachable []
  | join (sid nick roomId : String) (now : Nat) (conn : ConnState) (r : Rooms) :
      Reachable r → Reachable (joinRoomHandler sid nick roomId now conn r).rooms
  | disc (sid : String) (now : Nat) (conn : ConnState) (r : Rooms) :
      Reachable r → Reachable (disconnectHandler sid now conn r).rooms

theorem roomsWF_reachable {rooms : Rooms} (h : Reachable rooms) :
    roomsWF rooms := by
  induction h with
  | init =>
    intro k ms hk
    simp [roomsGet] at hk
  | join sid nick roomId now conn r hr ih =>
    show roomsWF (addMember roomId ⟨sid, nick⟩ (leavePrevious sid conn r))
    apply roomsWF_addMember
    unfold leavePrevious
    by_cases ht : jsTruthy conn.currentRoom = true
    · rw [if_pos ht]
      exact roomsWF_removeUserFromRoom ih _ _
    · rw [if_neg ht]
      exact ih
  | disc sid now conn r hr ih =>
    unfold disconnectHandler
    by_cases ht : (jsTruthy conn.currentRoom && jsTruthy conn.currentNickname) = true
    · rw [if_pos ht]
      exact roomsWF_removeUserFromRoom ih _ _
    · rw [if_neg ht]
      exact ih

/-- **C7.** In every reachable registry state, every room present in
the map has a non-empty member set; removing a room's last member
deletes the room entry entirely; and a join to a room id absent from
the registry creates a fresh room holding exactly the one new member
(no leaked members). -/
theorem registry_no_empty_rooms :
    (∀ rooms, Reachable rooms → ∀ k ms, roomsGet k rooms = some ms → ms ≠ []) ∧
      (∀ (rooms : Rooms) (roomId sid : String) (u : MemberEntry),
        roomsGet roomId rooms = some [u] → u.socketId = sid →
        roomsGet roomId (removeUserFromRoom roomId sid rooms) = none) ∧
      (∀ (rooms : Rooms) (roomId sid nick : String) (now : Nat) (conn : ConnState),
        roomsGet roomId rooms = none →
        roomsGet roomId (joinRoomHandler sid nick roomId now conn rooms).rooms =
          some [⟨sid, nick⟩]) := by
  refine ⟨fun rooms h => roomsWF_reachable h, ?_, ?_⟩
  · intro rooms roomId sid u hg hu
    unfold removeUserFromRoom
    rw [hg]
    simp [removeFirst, hu, roomsGet_roomsDelete_self]
  · intro rooms roomId sid nick now conn hg
    have hg1 : roomsGet roomId (leavePrevious sid conn rooms) = none := by
      unfold leavePrevious
      by_cases ht : jsTruthy conn.currentRoom = true
      · rw [if_pos ht]
        exact roomsGet_none_removeUserFromRoom _ _ hg
      · rw [if_neg ht]
        exact hg
    show roomsGet roomId (addMember roomId ⟨sid, nick⟩ (leavePrevious sid conn rooms)) = _
    rw [roomsGet_addMember_self, roomsGetD, hg1]
    rfl

/-- Witness for C7: a one-join reachable registry, the deletion of a
room on its last member's removal, and the fresh recreation of an
absent room. -/
theorem registry_no_empty_rooms_witness :
    ([(⟨"s1", "User1000"⟩ : MemberEntry)] ≠ []) ∧
      roomsGet "a" (removeUserFromRoom "a" "s1" [("a", [⟨"s1", "User1000"⟩])]) = none ∧
      roomsGet "b" (joinRoomHandler "s1" "User1000" "b" 0 ⟨none, none⟩ []).rooms =
        some [⟨"s1", "User1000"⟩] :=
  ⟨registry_no_empty_rooms.1
      (joinRoomHandler "s1" "User1000" "a" 0 ⟨none, none⟩ []).rooms
      (Reachable.join "s1" "User1000" "a" 0 ⟨none, none⟩ [] Reachable.init) "a"
      [⟨"s1", "User1000"⟩] (by decide),
    registry_no_empty_rooms.2.1 [("a", [⟨"s1", "User1000"⟩])] "a" "s1"
      ⟨"s1", "User1000"⟩ (by decide) rfl,
    registry_no_empty_rooms.2.2 [] "b" "s1" "User1000" 0 ⟨none, none⟩ rfl⟩

/-! ### Identity assignor -/

theorem nicknameWords_getD_length_pos (i : Nat) :
    0 < ((nicknameWords.get? i).getD "User").length := by
  rcases i with _ | _ | _ | _ | _ | n
  · decide
  · decide
  · decide
  · decide
  · decide
  · show 0 < String.length "User"
    decide

/-- A generated nickname is never the empty string: it always starts
with one of the five category words.  This backs the non-empty
identity hypotheses of the router theorems: real runs only ever store
generator output in `currentNickname`. -/
theorem generateNickname_ne_empty (randWord randNum : Nat) :
    generateNickname randWord randNum ≠ "" := by
  show ((nicknameWords.get? (randWord % nicknameWords.length)).getD "User" ++
    toString (randNum % 9000 + 1000)) ≠ ""
  intro h
  have h1 := congrArg String.length h
  rw [String.length_append] at h1
  have h2 := nicknameWords_getD_length_pos (randWord % nicknameWords.length)
  rw [String.length_empty] at h1
  omega

end SmallTalk
